import Mathlib

/-!
Verification of the DiceIt `GameManager` core (round lifecycle, pot
accounting, winner selection and settlement).

The definitions below are a shallow embedding of `src/managers/GameManager.js`
(the `GameManager` class).  Stake amounts and wallet balances are modelled as
rationals (`Rat`); the database tables (`wallets`, `bets`, `games`) are
modelled as key-indexed partial maps, faithful to the code's
`.eq(key, v).single()` reads and `.update(...).eq(key, v)` writes.  External
persistence calls that can fail (the `bets` insert, the `games` insert, the
wallet-debit update) are modelled by explicit outcome parameters, since their
success is decided outside the core.
-/

namespace DiceIt

abbrev Q := Rat

/-- The two supported stake units.  The code reads balances with
`token === 'SOL' ? wallet.sol_balance : wallet.usdc_balance` and keeps
`pot = \x7b SOL, USDC \x7d`. -/
inductive Token where
  | SOL
  | USDC
deriving DecidableEq, Repr

/-- One entry of `getDiceConfig`'s table. -/
structure DiceConfig where
  min : Int
  max : Int
  name : String
deriving DecidableEq, Repr

/-- `GameManager.getDiceConfig`: `configs[diceType] || configs['D6']`. -/
def getDiceConfig (diceType : String) : DiceConfig :=
  if diceType = "D6" then ⟨1, 6, "6-sided dice"⟩
  else if diceType = "D10" then ⟨1, 10, "10-sided dice"⟩
  else if diceType = "D20" then ⟨1, 20, "20-sided dice"⟩
  else if diceType = "D100" then ⟨1, 100, "100-sided dice"⟩
  else ⟨1, 6, "6-sided dice"⟩

/-- One element of `gameData.players` as pushed by `joinGame`. -/
structure Player where
  userId : Nat
  username : String
  amount : Q
  token : Token
  chosenNumber : Int
  betId : Nat
deriving DecidableEq, Repr

/-- The in-memory per-group game data stored in `this.activeGames`. -/
structure GameData where
  gameId : Nat
  diceType : String
  randomnessMethod : String
  diceConfig : DiceConfig
  players : List Player
  potSOL : Q
  potUSDC : Q
deriving DecidableEq, Repr

/-- `gameData.pot[token]`. -/
def GameData.pot (g : GameData) (t : Token) : Q :=
  match t with
  | .SOL => g.potSOL
  | .USDC => g.potUSDC

/-- A row of the `wallets` table (the fields the core reads and writes). -/
structure Wallet where
  userId : Nat
  solBalance : Q
  usdcBalance : Q
deriving DecidableEq, Repr

/-- `token === 'SOL' ? wallet.sol_balance : wallet.usdc_balance`. -/
def Wallet.balanceOf (w : Wallet) (t : Token) : Q :=
  match t with
  | .SOL => w.solBalance
  | .USDC => w.usdcBalance

/-- A row of the `bets` table. -/
structure Bet where
  id : Nat
  gameId : Nat
  userId : Nat
  chosenNumber : Int
  stakeAmount : Q
  token : Token
  won : Option Bool
  payout : Option Q
  distanceFromResult : Option Nat
deriving DecidableEq, Repr

/-- A row of the `games` table (the fields the core writes). -/
structure GameRow where
  id : Nat
  groupId : Nat
  status : String
  numPlayers : Nat
  potSol : Q
  potUsdc : Q
  diceResult : Option Int
  winnerIds : Option (List Nat)
  houseFeeSol : Option Q
  houseFeeUsdc : Option Q
deriving DecidableEq, Repr

/-- The external store: `wallets` keyed by `user_id`, `bets` keyed by `id`,
`games` keyed by `id`.  Fresh primary keys are drawn from counters. -/
structure DB where
  wallets : Nat → Option Wallet
  bets : Nat → Option Bet
  games : Nat → Option GameRow
  nextBetId : Nat
  nextGameId : Nat

/-- The manager's in-memory state: `this.activeGames : Map groupId gameData`
together with the store it talks to. -/
structure ManagerState where
  activeGames : Nat → Option GameData
  db : DB

/-- `UPDATE wallets SET <field> = newBalance WHERE user_id = userId` where
`<field>` is `sol_balance` or `usdc_balance` according to the token. -/
def DB.setWalletBalance (db : DB) (userId : Nat) (t : Token) (newBalance : Q) : DB :=
  { db with wallets := fun u =>
      if u = userId then
        (db.wallets u).map (fun w =>
          match t with
          | .SOL => { w with solBalance := newBalance }
          | .USDC => { w with usdcBalance := newBalance })
      else db.wallets u }

/-- `UPDATE games SET status = status WHERE id = gameId`. -/
def DB.setGameStatus (db : DB) (gameId : Nat) (status : String) : DB :=
  { db with games := fun i =>
      if i = gameId then (db.games i).map (fun g => { g with status := status })
      else db.games i }

/-- `UPDATE games SET num_players, pot_sol, pot_usdc WHERE id = gameId`
(the aggregate update at the end of `joinGame`). -/
def DB.setGameAggregates (db : DB) (gameId numPlayers : Nat) (potSol potUsdc : Q) : DB :=
  { db with games := fun i =>
      if i = gameId then
        (db.games i).map (fun g =>
          { g with numPlayers := numPlayers, potSol := potSol, potUsdc := potUsdc })
      else db.games i }

/-- The final `games` update of `rollDice`: status `finished`, dice result,
winner ids, house fees, timestamps. -/
def DB.finalizeGame (db : DB) (gameId : Nat) (diceResult : Int)
    (winnerIds : List Nat) (hfSol hfUsdc : Q) : DB :=
  { db with games := fun i =>
      if i = gameId then
        (db.games i).map (fun g =>
          { g with status := "finished", diceResult := some diceResult,
                   winnerIds := some winnerIds,
                   houseFeeSol := some hfSol, houseFeeUsdc := some hfUsdc })
      else db.games i }

/-- Result of `startGame`, one constructor per `return` site. -/
inductive StartResult where
  | success (gameId : Nat)
  | errAlreadyActive
  | errFailedToCreate
deriving DecidableEq, Repr

/-- `GameManager.startGame`.  `createOk` models the outcome of the external
`games` insert (a failed insert aborts with `Failed to create game`). -/
def startGame (s : ManagerState) (groupId : Nat)
    (groupName diceType randomnessMethod : String) (createOk : Bool) :
    ManagerState × StartResult :=
  if (s.activeGames groupId).isSome then
    (s, .errAlreadyActive)
  else
    let diceConfig := getDiceConfig diceType
    if createOk then
      let gid := s.db.nextGameId
      let row : GameRow :=
        { id := gid, groupId := groupId, status := "waiting", numPlayers := 0,
          potSol := 0, potUsdc := 0, diceResult := none, winnerIds := none,
          houseFeeSol := none, houseFeeUsdc := none }
      let db1 : DB :=
        { s.db with
          games := fun i => if i = gid then some row else s.db.games i,
          nextGameId := gid + 1 }
      let gd : GameData :=
        { gameId := gid, diceType := diceType, randomnessMethod := randomnessMethod,
          diceConfig := diceConfig, players := [], potSOL := 0, potUSDC := 0 }
      ({ activeGames := fun g => if g = groupId then some gd else s.activeGames g,
         db := db1 }, .success gid)
    else
      (s, .errFailedToCreate)

/-- Result of `joinGame`, one constructor per `return` site. -/
inductive JoinResult where
  | success (bet : Bet)
  | errNoActiveGame
  | errInvalidGuess (min max : Int)
  | errAlreadyJoined
  | errWalletNotFound
  | errInsufficientBalance (token : Token) (balance : Q)
  | errFailedToPlaceBet
deriving DecidableEq, Repr

/-- `GameManager.joinGame`.  `betInsertOk` models the outcome of the external
`bets` insert (a failure aborts with `Failed to place bet`); `debitOk` models
whether the wallet-balance update is applied by the store — the code does not
inspect that update's result, so it branches on neither value of `debitOk`. -/
def joinGame (s : ManagerState) (groupId userId : Nat) (username : String)
    (amount : Q) (token : Token) (chosenNumber : Int)
    (betInsertOk debitOk : Bool) : ManagerState × JoinResult :=
  match s.activeGames groupId with
  | none => (s, .errNoActiveGame)
  | some gameData =>
    if chosenNumber < gameData.diceConfig.min ∨ chosenNumber > gameData.diceConfig.max then
      (s, .errInvalidGuess gameData.diceConfig.min gameData.diceConfig.max)
    else if gameData.players.any (fun p => p.userId = userId) then
      (s, .errAlreadyJoined)
    else
      match s.db.wallets userId with
      | none => (s, .errWalletNotFound)
      | some wallet =>
        let balance := wallet.balanceOf token
        if balance < amount then
          (s, .errInsufficientBalance token balance)
        else if betInsertOk then
          let betId := s.db.nextBetId
          let bet : Bet :=
            { id := betId, gameId := gameData.gameId, userId := userId,
              chosenNumber := chosenNumber, stakeAmount := amount, token := token,
              won := none, payout := none, distanceFromResult := none }
          let dbWithBet : DB :=
            { s.db with
              bets := fun i => if i = betId then some bet else s.db.bets i,
              nextBetId := betId + 1 }
          let newBalance := balance - amount
          let dbAfterDebit :=
            if debitOk then dbWithBet.setWalletBalance userId token newBalance
            else dbWithBet
          let player : Player :=
            { userId := userId, username := username, amount := amount,
              token := token, chosenNumber := chosenNumber, betId := betId }
          let gameData1 : GameData :=
            { gameData with
              players := gameData.players ++ [player],
              potSOL := if token = .SOL then gameData.potSOL + amount else gameData.potSOL,
              potUSDC := if token = .USDC then gameData.potUSDC + amount else gameData.potUSDC }
          let db1 := dbAfterDebit.setGameAggregates gameData.gameId
            gameData1.players.length gameData1.potSOL gameData1.potUSDC
          ({ activeGames := fun g => if g = groupId then some gameData1 else s.activeGames g,
             db := db1 }, .success bet)
        else
          (s, .errFailedToPlaceBet)

/-- `Math.abs(player.chosenNumber - diceResult)`. -/
def playerDistance (p : Player) (diceResult : Int) : Nat :=
  (p.chosenNumber - diceResult).natAbs

/-- `GameManager.calculateWinners`: attach distances, take the minimum, keep
every player at that minimum.  `Math.min()` of an empty spread is `Infinity`
and the filter then keeps nothing, hence the `none` branch returns `[]`. -/
def calculateWinners (players : List Player) (diceResult : Int) :
    List (Player × Nat) :=
  let playersWithDistance := players.map (fun p => (p, playerDistance p diceResult))
  match (playersWithDistance.map (fun p => p.2)).min? with
  | none => []
  | some minD => playersWithDistance.filter (fun p => p.2 = minD)

/-- The per-winner body of `rollDice`'s settlement loop: set `won`, `payout`
and `distance_from_result` on the winner's bet, then credit the payout to the
winner's wallet (skipped when the wallet row is missing).  The user-stats
update touches only the external `users` table and is outside the modelled
state. -/
def settleWinner (db : DB) (w : Player × Nat) (payoutSOL payoutUSDC : Q) : DB :=
  let payout := match w.1.token with | .SOL => payoutSOL | .USDC => payoutUSDC
  let db1 : DB :=
    { db with bets := fun i =>
        if i = w.1.betId then
          (db.bets i).map (fun b =>
            { b with won := some true, payout := some payout,
                     distanceFromResult := some w.2 })
        else db.bets i }
  match db1.wallets w.1.userId with
  | none => db1
  | some wallet =>
    let newBalance := wallet.balanceOf w.1.token + payout
    db1.setWalletBalance w.1.userId w.1.token newBalance

/-- The per-loser body of `rollDice`'s loop: record `won = false` and the
distance on the loser's bet (no wallet credit). -/
def settleLoser (db : DB) (p : Player) (diceResult : Int) : DB :=
  { db with bets := fun i =>
      if i = p.betId then
        (db.bets i).map (fun b =>
          { b with won := some false,
                   distanceFromResult := some (p.chosenNumber - diceResult).natAbs })
      else db.bets i }

/-- The per-player body of `cancelGame`'s refund loop: credit the player's
stake back to their wallet (skipped when the wallet row is missing). -/
def refundPlayer (db : DB) (p : Player) : DB :=
  match db.wallets p.userId with
  | none => db
  | some wallet =>
    let newBalance := wallet.balanceOf p.token + p.amount
    db.setWalletBalance p.userId p.token newBalance

/-- `GameManager.cancelGame`: refund every player, mark the game row
`cancelled`, delete the registry entry (and clear the timer, which lives
outside the modelled state). -/
def cancelGame (s : ManagerState) (groupId : Nat) : ManagerState :=
  match s.activeGames groupId with
  | none => s
  | some gameData =>
    let db1 := gameData.players.foldl (fun db p => refundPlayer db p) s.db
    let db2 := db1.setGameStatus gameData.gameId "cancelled"
    { activeGames := fun g => if g = groupId then none else s.activeGames g,
      db := db2 }

/-- Result of `rollDice`, one constructor per `return` site. -/
inductive RollResult where
  | success (diceResult : Int) (winners : List (Player × Nat))
      (payoutSOL payoutUSDC : Q) (totalPlayers : Nat) (potSOL potUSDC : Q)
  | errNoActiveGame
  | errNoPlayers
deriving DecidableEq, Repr

/-- `parseFloat(process.env.HOUSE_FEE_PERCENT || 2) / 100`: `houseFeeEnv`
models the parsed environment variable, absent by default. -/
def houseFeePercent (houseFeeEnv : Option Q) : Q :=
  houseFeeEnv.getD 2 / 100

/-- `GameManager.rollDice`: cancel when nobody joined, otherwise mark
`rolling`, compute winners, fee and per-winner payouts, settle winners and
losers, finalize the game row and delete the registry entry. -/
def rollDice (s : ManagerState) (groupId : Nat) (diceResult : Int)
    (houseFeeEnv : Option Q) : ManagerState × RollResult :=
  match s.activeGames groupId with
  | none => (s, .errNoActiveGame)
  | some gameData =>
    if gameData.players.length = 0 then
      (cancelGame s groupId, .errNoPlayers)
    else
      let db1 := s.db.setGameStatus gameData.gameId "rolling"
      let winners := calculateWinners gameData.players diceResult
      let feeRate := houseFeePercent houseFeeEnv
      let houseFeeSOL := gameData.potSOL * feeRate
      let houseFeeUSDC := gameData.potUSDC * feeRate
      let payoutSOL := (gameData.potSOL - houseFeeSOL) / (winners.length : Q)
      let payoutUSDC := (gameData.potUSDC - houseFeeUSDC) / (winners.length : Q)
      let db2 := winners.foldl (fun db w => settleWinner db w payoutSOL payoutUSDC) db1
      let losers := gameData.players.filter
        (fun p => ¬ (winners.any (fun w => w.1.userId = p.userId)))
      let db3 := losers.foldl (fun db l => settleLoser db l diceResult) db2
      let db4 := db3.finalizeGame gameData.gameId diceResult
        (winners.map (fun w => w.1.userId)) houseFeeSOL houseFeeUSDC
      ({ activeGames := fun g => if g = groupId then none else s.activeGames g,
         db := db4 },
       .success diceResult winners payoutSOL payoutUSDC
         gameData.players.length gameData.potSOL gameData.potUSDC)

/-- `GameManager.getActiveGame`. -/
def getActiveGame (s : ManagerState) (groupId : Nat) : Option GameData :=
  s.activeGames groupId

/-- A snapshot of `GameManager.getPotInfo`. -/
structure PotInfo where
  potSOL : Q
  potUSDC : Q
  players : Nat
  diceType : String
deriving DecidableEq, Repr

/-- `GameManager.getPotInfo`. -/
def getPotInfo (s : ManagerState) (groupId : Nat) : Option PotInfo :=
  (s.activeGames groupId).map (fun gd =>
    { potSOL := gd.potSOL, potUSDC := gd.potUSDC,
      players := gd.players.length, diceType := gd.diceType })

/-! ## Operation sequences and the pot invariant -/

/-- Sum of the stakes of the participants holding a given unit. -/
def sumAmounts (players : List Player) (t : Token) : Q :=
  ((players.filter (fun p => p.token = t)).map (fun p => p.amount)).sum

/-- One externally triggered operation on the manager. -/
inductive Op where
  | start (groupId : Nat) (groupName diceType randomnessMethod : String) (createOk : Bool)
  | join (groupId userId : Nat) (username : String) (amount : Q) (token : Token)
      (chosenNumber : Int) (betInsertOk debitOk : Bool)
  | roll (groupId : Nat) (diceResult : Int) (houseFeeEnv : Option Q)
  | cancel (groupId : Nat)

/-- Apply one operation, keeping only the state. -/
def applyOp (s : ManagerState) : Op → ManagerState
  | .start g gn dt rm ok => (startGame s g gn dt rm ok).1
  | .join g u un a t c bOk dOk => (joinGame s g u un a t c bOk dOk).1
  | .roll g d env => (rollDice s g d env).1
  | .cancel g => cancelGame s g

/-- Apply a sequence of operations in order. -/
def applyOps (s : ManagerState) (ops : List Op) : ManagerState :=
  ops.foldl applyOp s

/-- The constructor's state: `this.activeGames = new Map()`, over an
arbitrary pre-existing store. -/
def initState (db : DB) : ManagerState :=
  { activeGames := fun _ => none, db := db }

/-- The spec's pot invariant for one round:
`pot[unit] == sum of amount over participants where participant.unit == unit`. -/
def potInv (gd : GameData) : Prop :=
  gd.potSOL = sumAmounts gd.players .SOL ∧ gd.potUSDC = sumAmounts gd.players .USDC

/-- Every round in the registry satisfies the pot invariant. -/
def RegistryInv (s : ManagerState) : Prop :=
  ∀ g gd, s.activeGames g = some gd → potInv gd

theorem sumAmounts_append_single (ps : List Player) (p : Player) (t : Token) :
    sumAmounts (ps ++ [p]) t
      = sumAmounts ps t + (if p.token = t then p.amount else 0) := by
  simp only [sumAmounts, List.filter_append]
  by_cases h : p.token = t
  · simp [h]
  · simp [h]

theorem registryInv_startGame (s : ManagerState) (g : Nat) (gn dt rm : String)
    (ok : Bool) (hs : RegistryInv s) : RegistryInv (startGame s g gn dt rm ok).1 := by
  intro g' gd' h
  unfold startGame at h
  by_cases hact : (s.activeGames g).isSome
  · rw [if_pos hact] at h
    exact hs g' gd' h
  · rw [if_neg hact] at h
    cases ok with
    | false => exact hs g' gd' h
    | true =>
      rw [if_pos rfl] at h
      simp only at h
      by_cases hg : g' = g
      · rw [if_pos hg] at h
        cases h
        exact ⟨rfl, rfl⟩
      · rw [if_neg hg] at h
        exact hs g' gd' h

theorem registryInv_joinGame (s : ManagerState) (g u : Nat) (un : String)
    (a : Q) (t : Token) (c : Int) (bOk dOk : Bool) (hs : RegistryInv s) :
    RegistryInv (joinGame s g u un a t c bOk dOk).1 := by
  intro g' gd' h
  unfold joinGame at h
  cases hact : s.activeGames g with
  | none => rw [hact] at h; exact hs g' gd' h
  | some gameData =>
    rw [hact] at h
    simp only at h
    by_cases hrange : c < gameData.diceConfig.min ∨ c > gameData.diceConfig.max
    · rw [if_pos hrange] at h; exact hs g' gd' h
    · rw [if_neg hrange] at h
      by_cases hjoined : gameData.players.any (fun p => p.userId = u) = true
      · rw [if_pos hjoined] at h; exact hs g' gd' h
      · rw [if_neg hjoined] at h
        cases hw : s.db.wallets u with
        | none => rw [hw] at h; exact hs g' gd' h
        | some wallet =>
          rw [hw] at h
          simp only at h
          by_cases hbal : wallet.balanceOf t < a
          · rw [if_pos hbal] at h; exact hs g' gd' h
          · rw [if_neg hbal] at h
            cases bOk with
            | false => exact hs g' gd' h
            | true =>
              rw [if_pos rfl] at h
              simp only at h
              by_cases hg : g' = g
              · rw [if_pos hg] at h
                cases h
                have hinv := hs g gameData hact
                refine ⟨?_, ?_⟩
                · simp only [sumAmounts_append_single, hinv.1]
                  cases t <;> simp
                · simp only [sumAmounts_append_single, hinv.2]
                  cases t <;> simp
              · rw [if_neg hg] at h
                exact hs g' gd' h

theorem cancelGame_activeGames_some (s : ManagerState) (g g' : Nat) (gd' : GameData)
    (h : (cancelGame s g).activeGames g' = some gd') : s.activeGames g' = some gd' := by
  unfold cancelGame at h
  cases hact : s.activeGames g with
  | none => rw [hact] at h; exact h
  | some gd =>
    rw [hact] at h
    simp only at h
    by_cases hg : g' = g
    · rw [if_pos hg] at h; exact absurd h (by simp)
    · rw [if_neg hg] at h; exact h

theorem rollDice_activeGames_some (s : ManagerState) (g : Nat) (d : Int)
    (env : Option Q) (g' : Nat) (gd' : GameData)
    (h : ((rollDice s g d env).1).activeGames g' = some gd') :
    s.activeGames g' = some gd' := by
  unfold rollDice at h
  cases hact : s.activeGames g with
  | none => rw [hact] at h; exact h
  | some gd =>
    rw [hact] at h
    simp only at h
    by_cases hlen : gd.players.length = 0
    · rw [if_pos hlen] at h
      exact cancelGame_activeGames_some s g g' gd' h
    · rw [if_neg hlen] at h
      simp only at h
      by_cases hg : g' = g
      · rw [if_pos hg] at h; exact absurd h (by simp)
      · rw [if_neg hg] at h; exact h

theorem registryInv_cancelGame (s : ManagerState) (g : Nat) (hs : RegistryInv s) :
    RegistryInv (cancelGame s g) := by
  intro g' gd' h
  exact hs g' gd' (cancelGame_activeGames_some s g g' gd' h)

theorem registryInv_rollDice (s : ManagerState) (g : Nat) (d : Int) (env : Option Q)
    (hs : RegistryInv s) : RegistryInv (rollDice s g d env).1 := by
  intro g' gd' h
  exact hs g' gd' (rollDice_activeGames_some s g d env g' gd' h)

theorem registryInv_applyOp (s : ManagerState) (op : Op) (hs : RegistryInv s) :
    RegistryInv (applyOp s op) := by
  cases op with
  | start g gn dt rm ok => exact registryInv_startGame s g gn dt rm ok hs
  | join g u un a t c bOk dOk => exact registryInv_joinGame s g u un a t c bOk dOk hs
  | roll g d env => exact registryInv_rollDice s g d env hs
  | cancel g => exact registryInv_cancelGame s g hs

theorem registryInv_applyOps (s : ManagerState) (ops : List Op) (hs : RegistryInv s) :
    RegistryInv (applyOps s ops) := by
  induction ops generalizing s with
  | nil => exact hs
  | cons op rest ih => exact ih (applyOp s op) (registryInv_applyOp s op hs)

theorem registryInv_initState (db : DB) : RegistryInv (initState db) := by
  intro g gd h
  exact absurd h (by simp [initState])

/-- Every state reachable from a fresh manager satisfies the pot invariant. -/
theorem registryInv_reachable (db : DB) (ops : List Op) :
    RegistryInv (applyOps (initState db) ops) :=
  registryInv_applyOps (initState db) ops (registryInv_initState db)

/-! ## Winner selection -/

theorem nat_min?_eq_some_iff (xs : List Nat) (a : Nat) :
    xs.min? = some a ↔ a ∈ xs ∧ ∀ b ∈ xs, a ≤ b :=
  List.min?_eq_some_iff (fun x => Nat.le_refl x) (fun x y => min_choice x y)
    (fun _ _ _ => le_min_iff)

theorem calculateWinners_eq (players : List Player) (r : Int) :
    calculateWinners players r
      = match ((players.map (fun p => (p, playerDistance p r))).map
            (fun q => q.2)).min? with
        | none => []
        | some m =>
          (players.map (fun p => (p, playerDistance p r))).filter
            (fun q => q.2 = m) := rfl

theorem calculateWinners_subset (players : List Player) (r : Int) :
    ∀ w ∈ calculateWinners players r,
      w ∈ players.map (fun p => (p, playerDistance p r)) := by
  intro w hw
  rw [calculateWinners_eq] at hw
  split at hw
  · exact absurd hw (by simp)
  · exact List.mem_of_mem_filter hw

theorem calculateWinners_betId_nodup (players : List Player) (r : Int)
    (hnd : (players.map Player.betId).Nodup) :
    ((calculateWinners players r).map (fun w => w.1.betId)).Nodup := by
  rw [calculateWinners_eq]
  split
  · simp
  · rename_i m hmin
    have hsub : ((players.map (fun p => (p, playerDistance p r))).filter
        (fun q => q.2 = m)).Sublist (players.map (fun p => (p, playerDistance p r))) :=
      List.filter_sublist _
    have hmapsub := hsub.map (fun w => w.1.betId)
    have hcollapse : ((players.map (fun p => (p, playerDistance p r))).map
        (fun w => w.1.betId)) = players.map Player.betId := by
      rw [List.map_map]
      rfl
    rw [hcollapse] at hmapsub
    exact hnd.sublist hmapsub

theorem calculateWinners_mem_iff (players : List Player) (r : Int)
    (hne : players ≠ []) (w : Player × Nat) :
    w ∈ calculateWinners players r ↔
      w.1 ∈ players ∧ w.2 = playerDistance w.1 r ∧
        ∀ q ∈ players, playerDistance w.1 r ≤ playerDistance q r := by
  rw [calculateWinners_eq]
  split
  · rename_i hmin
    rw [List.min?_eq_none_iff] at hmin
    simp only [List.map_eq_nil_iff] at hmin
    exact absurd hmin hne
  · rename_i m hmin
    rw [nat_min?_eq_some_iff] at hmin
    obtain ⟨hmem, hmin_le⟩ := hmin
    simp only [List.map_map, List.mem_map, Function.comp] at hmem hmin_le
    obtain ⟨pm, hpm, hpmd⟩ := hmem
    constructor
    · intro hw
      have hw2 := List.of_mem_filter hw
      have hw1 := List.mem_of_mem_filter hw
      simp only [List.mem_map] at hw1
      obtain ⟨p, hp, hpw⟩ := hw1
      subst hpw
      simp only [decide_eq_true_eq] at hw2
      refine ⟨hp, rfl, ?_⟩
      intro q hq
      rw [hw2]
      exact hmin_le _ ⟨q, hq, rfl⟩
    · rintro ⟨hw1, hw2, hw3⟩
      apply List.mem_filter.mpr
      constructor
      · simp only [List.mem_map]
        exact ⟨w.1, hw1, by rw [← hw2]⟩
      · simp only [decide_eq_true_eq]
        rw [hw2]
        have h1 : playerDistance w.1 r ≤ m := by
          rw [← hpmd]
          exact hw3 pm hpm
        have h2 : m ≤ playerDistance w.1 r := hmin_le _ ⟨w.1, hw1, rfl⟩
        exact Nat.le_antisymm h1 h2

/-! ## Tracking the store through settlement -/

theorem settleWinner_games (db : DB) (w : Player × Nat) (pS pU : Q) :
    (settleWinner db w pS pU).games = db.games := by
  unfold settleWinner
  dsimp only
  split <;> split <;> simp [DB.setWalletBalance]

theorem settleWinner_bets (db : DB) (w : Player × Nat) (pS pU : Q) (i : Nat) :
    (settleWinner db w pS pU).bets i
      = if i = w.1.betId then
          (db.bets i).map (fun b =>
            { b with won := some true,
                     payout := some (match w.1.token with | .SOL => pS | .USDC => pU),
                     distanceFromResult := some w.2 })
        else db.bets i := by
  unfold settleWinner
  dsimp only
  split <;> split <;> simp [DB.setWalletBalance]

theorem settleLoser_games (db : DB) (p : Player) (d : Int) :
    (settleLoser db p d).games = db.games := rfl

theorem settleLoser_wallets (db : DB) (p : Player) (d : Int) :
    (settleLoser db p d).wallets = db.wallets := rfl

theorem settleLoser_bets_ne (db : DB) (p : Player) (d : Int) (i : Nat)
    (h : i ≠ p.betId) : (settleLoser db p d).bets i = db.bets i := by
  unfold settleLoser
  simp only
  rw [if_neg h]

theorem foldl_settleWinner_games (ws : List (Player × Nat)) (pS pU : Q) (db : DB) :
    (ws.foldl (fun db x => settleWinner db x pS pU) db).games = db.games := by
  induction ws generalizing db with
  | nil => rfl
  | cons x rest ih => rw [List.foldl_cons, ih, settleWinner_games]

theorem foldl_settleLoser_games (ls : List Player) (d : Int) (db : DB) :
    (ls.foldl (fun db l => settleLoser db l d) db).games = db.games := by
  induction ls generalizing db with
  | nil => rfl
  | cons x rest ih => rw [List.foldl_cons, ih, settleLoser_games]

theorem foldl_settleWinner_bets_ne (ws : List (Player × Nat)) (pS pU : Q) (db : DB)
    (i : Nat) (h : ∀ w ∈ ws, w.1.betId ≠ i) :
    (ws.foldl (fun db x => settleWinner db x pS pU) db).bets i = db.bets i := by
  induction ws generalizing db with
  | nil => rfl
  | cons x rest ih =>
    rw [List.foldl_cons, ih _ (fun y hy => h y (List.mem_cons_of_mem x hy)),
      settleWinner_bets, if_neg (fun hEq => h x (List.mem_cons_self x rest) hEq.symm)]

theorem foldl_settleLoser_bets_ne (ls : List Player) (d : Int) (db : DB)
    (i : Nat) (h : ∀ l ∈ ls, l.betId ≠ i) :
    (ls.foldl (fun db l => settleLoser db l d) db).bets i = db.bets i := by
  induction ls generalizing db with
  | nil => rfl
  | cons x rest ih =>
    rw [List.foldl_cons, ih _ (fun y hy => h y (List.mem_cons_of_mem x hy)),
      settleLoser_bets_ne _ _ _ _ (fun hEq => h x (List.mem_cons_self x rest) hEq.symm)]

theorem foldl_settleWinner_bets_mem (ws : List (Player × Nat)) (pS pU : Q) (db : DB)
    (w : Player × Nat) (hw : w ∈ ws)
    (hnd : (ws.map (fun x => x.1.betId)).Nodup) :
    (ws.foldl (fun db x => settleWinner db x pS pU) db).bets w.1.betId
      = (db.bets w.1.betId).map (fun b =>
          { b with won := some true,
                   payout := some (match w.1.token with | .SOL => pS | .USDC => pU),
                   distanceFromResult := some w.2 }) := by
  induction ws generalizing db with
  | nil => cases hw
  | cons x rest ih =>
    rw [List.foldl_cons]
    rw [List.map_cons, List.nodup_cons] at hnd
    rcases List.mem_cons.mp hw with hEq | hmem
    · subst hEq
      have hrest : ∀ y ∈ rest, y.1.betId ≠ w.1.betId := by
        intro y hy hEq2
        exact hnd.1 (List.mem_map.mpr ⟨y, hy, hEq2⟩)
      rw [foldl_settleWinner_bets_ne rest pS pU _ _ hrest,
        settleWinner_bets, if_pos rfl]
    · have hne : w.1.betId ≠ x.1.betId := by
        intro hEq2
        have hmemmap : w.1.betId ∈ rest.map (fun z => z.1.betId) :=
          List.mem_map.mpr ⟨w, hmem, rfl⟩
        rw [hEq2] at hmemmap
        exact hnd.1 hmemmap
      rw [ih _ hmem hnd.2, settleWinner_bets, if_neg hne]

/-! ## Concrete fixtures -/

def exWallet1 : Wallet := ⟨1, 100, 100⟩
def exWallet2 : Wallet := ⟨2, 100, 100⟩
def exWallet3 : Wallet := ⟨3, 100, 100⟩

def exP1 : Player := ⟨1, "alice", 10, .SOL, 3, 11⟩
def exP2 : Player := ⟨2, "bob", 10, .USDC, 5, 12⟩

def exBet1 : Bet := ⟨11, 100, 1, 3, 10, .SOL, none, none, none⟩
def exBet2 : Bet := ⟨12, 100, 2, 5, 10, .USDC, none, none, none⟩

def exRow : GameRow := ⟨100, 1, "waiting", 2, 10, 10, none, none, none, none⟩

def exGame : GameData :=
  ⟨100, "D6", "instant", getDiceConfig "D6", [exP1, exP2], 10, 10⟩

def exDB : DB :=
  { wallets := fun u =>
      if u = 1 then some exWallet1
      else if u = 2 then some exWallet2
      else if u = 3 then some exWallet3
      else none,
    bets := fun i =>
      if i = 11 then some exBet1 else if i = 12 then some exBet2 else none,
    games := fun i => if i = 100 then some exRow else none,
    nextBetId := 13, nextGameId := 101 }

def exState : ManagerState :=
  ⟨fun g => if g = 1 then some exGame else none, exDB⟩

def exEmptyGame : GameData :=
  ⟨100, "D6", "instant", getDiceConfig "D6", [], 0, 0⟩

def exEmptyState : ManagerState :=
  ⟨fun g => if g = 1 then some exEmptyGame else none, exDB⟩

def exOps : List Op :=
  [.start 1 "grp" "D6" "instant" true,
   .join 1 1 "alice" 10 .SOL 3 true true,
   .join 1 2 "bob" 10 .USDC 5 true true]

def exGd2 : GameData :=
  ⟨101, "D6", "instant", getDiceConfig "D6",
   [⟨1, "alice", 10, .SOL, 3, 13⟩, ⟨2, "bob", 10, .USDC, 5, 14⟩], 0 + 10, 0 + 10⟩

/-! ## Claims -/

/-- Claim C2: for every non-empty participant list and every outcome, the
winner set computed at settlement is exactly the set of participants whose
distance to the outcome is minimal; membership depends only on the distance,
never on join order or stake amount, so ties always split. -/
theorem calculateWinners_min_distance_set (players : List Player) (r : Int)
    (hne : players ≠ []) (w : Player × Nat) :
    w ∈ calculateWinners players r ↔
      w.1 ∈ players ∧ w.2 = playerDistance w.1 r ∧
        ∀ q ∈ players, playerDistance w.1 r ≤ playerDistance q r :=
  calculateWinners_mem_iff players r hne w

theorem calculateWinners_min_distance_set_witness :
    ([exP1, exP2] ≠ []) ∧ ((exP1, 1) ∈ calculateWinners [exP1, exP2] 4) :=
  ⟨by decide,
   (calculateWinners_min_distance_set [exP1, exP2] 4 (by decide) (exP1, 1)).mpr
     (by decide)⟩

/-- Claim C3 counterexample: account 1 is already a participant of the active
round, yet a second join with the out-of-range guess 7 (range 1..6) fails with
InvalidGuess, not AlreadyJoined. -/
theorem second_join_out_of_range_not_alreadyJoined :
    (joinGame exState 1 1 "alice" 5 Token.SOL 7 true true).2
        = JoinResult.errInvalidGuess 1 6 ∧
    (joinGame exState 1 1 "alice" 5 Token.SOL 7 true true).2
        ≠ JoinResult.errAlreadyJoined := by
  decide

/-- Claim C3 (amended): a second join by an account already participating in
the round fails with AlreadyJoined regardless of the amount, unit and store
outcomes, provided the supplied guess lies within the round's range; when the
guess is out of range the guess check fires first and the join fails with
InvalidGuess instead.  Either way the state is returned unchanged. -/
theorem joinGame_second_join_alreadyJoined (s : ManagerState) (g u : Nat)
    (un : String) (a : Q) (t : Token) (c : Int) (bOk dOk : Bool) (gd : GameData)
    (hact : s.activeGames g = some gd)
    (hjoined : gd.players.any (fun p => p.userId = u) = true) :
    (¬(c < gd.diceConfig.min ∨ c > gd.diceConfig.max) →
        joinGame s g u un a t c bOk dOk = (s, .errAlreadyJoined)) ∧
    ((c < gd.diceConfig.min ∨ c > gd.diceConfig.max) →
        joinGame s g u un a t c bOk dOk
          = (s, .errInvalidGuess gd.diceConfig.min gd.diceConfig.max)) := by
  constructor
  · intro hrange
    unfold joinGame
    rw [hact]
    dsimp only
    rw [if_neg hrange, if_pos hjoined]
  · intro hrange
    unfold joinGame
    rw [hact]
    dsimp only
    rw [if_pos hrange]

theorem joinGame_second_join_alreadyJoined_witness :
    joinGame exState 1 1 "alice" 7 Token.USDC 4 true true
      = (exState, JoinResult.errAlreadyJoined) :=
  (joinGame_second_join_alreadyJoined exState 1 1 "alice" 7 Token.USDC 4
    true true exGame rfl (by decide)).1 (by decide)

theorem cancelGame_removes_entry (s : ManagerState) (g : Nat) :
    (cancelGame s g).activeGames g = none := by
  unfold cancelGame
  cases hact : s.activeGames g with
  | none => exact hact
  | some gd =>
    dsimp only
    rw [if_pos rfl]

theorem rollDice_removes_entry (s : ManagerState) (g : Nat) (d : Int)
    (env : Option Q) : (rollDice s g d env).1.activeGames g = none := by
  unfold rollDice
  cases hact : s.activeGames g with
  | none => exact hact
  | some gd =>
    dsimp only
    by_cases hlen : gd.players.length = 0
    · rw [if_pos hlen]
      exact cancelGame_removes_entry s g
    · rw [if_neg hlen]
      dsimp only
      rw [if_pos rfl]

/-- Claim C5: while a round exists for a group, openRound fails with
AlreadyActive and leaves the state unchanged; round teardown (settlement via
rollDice, or cancellation) always removes the group's registry entry; and
once the entry is absent, openRound for that group succeeds (the external
round-creation insert succeeding). -/
theorem openRound_exclusive_per_group (s : ManagerState) (g : Nat)
    (gn dt rm : String) (ok : Bool) (d : Int) (env : Option Q) :
    ((s.activeGames g).isSome = true →
        startGame s g gn dt rm ok = (s, .errAlreadyActive)) ∧
    ((rollDice s g d env).1.activeGames g = none) ∧
    ((cancelGame s g).activeGames g = none) ∧
    (s.activeGames g = none →
        (startGame s g gn dt rm true).2 = .success s.db.nextGameId) := by
  refine ⟨?_, rollDice_removes_entry s g d env, cancelGame_removes_entry s g, ?_⟩
  · intro h
    unfold startGame
    rw [if_pos h]
  · intro h
    unfold startGame
    rw [h]
    rfl

theorem openRound_exclusive_per_group_witness :
    startGame exState 1 "grp" "D6" "instant" true
        = (exState, StartResult.errAlreadyActive) ∧
    (cancelGame exState 1).activeGames 1 = none ∧
    (startGame (initState exDB) 2 "grp" "D6" "instant" true).2
        = StartResult.success 101 :=
  ⟨(openRound_exclusive_per_group exState 1 "grp" "D6" "instant" true 4 none).1 rfl,
   (openRound_exclusive_per_group exState 1 "grp" "D6" "instant" true 4 none).2.2.1,
   (openRound_exclusive_per_group (initState exDB) 2 "grp" "D6" "instant"
     true 4 none).2.2.2 rfl⟩

/-- Claim C10: any dice-type string other than D6, D10, D20 and D100 falls
back to the D6 configuration with range 1..6; every configuration has
min = 1; and openRound never fails on the dice type: with no active round
(and the round insert succeeding) it succeeds for any dice-type string. -/
theorem getDiceConfig_fallback_D6 (dt : String) (s : ManagerState) (g : Nat)
    (gn rm : String) :
    (¬(dt = "D6" ∨ dt = "D10" ∨ dt = "D20" ∨ dt = "D100") →
        getDiceConfig dt = ⟨1, 6, "6-sided dice"⟩) ∧
    (getDiceConfig dt).min = 1 ∧
    (s.activeGames g = none →
        (startGame s g gn dt rm true).2 = .success s.db.nextGameId) := by
  refine ⟨?_, ?_, ?_⟩
  · intro h
    unfold getDiceConfig
    rw [if_neg (fun hc => h (Or.inl hc)), if_neg (fun hc => h (Or.inr (Or.inl hc))),
      if_neg (fun hc => h (Or.inr (Or.inr (Or.inl hc)))),
      if_neg (fun hc => h (Or.inr (Or.inr (Or.inr hc))))]
  · unfold getDiceConfig
    split_ifs <;> rfl
  · intro h
    unfold startGame
    rw [h]
    rfl

theorem getDiceConfig_fallback_D6_witness :
    getDiceConfig "D7" = ⟨1, 6, "6-sided dice"⟩ ∧
    (getDiceConfig "D7").min = 1 ∧
    (startGame (initState exDB) 2 "grp" "D7" "instant" true).2
        = StartResult.success 101 :=
  ⟨(getDiceConfig_fallback_D6 "D7" (initState exDB) 2 "grp" "instant").1 (by decide),
   (getDiceConfig_fallback_D6 "D7" (initState exDB) 2 "grp" "instant").2.1,
   (getDiceConfig_fallback_D6 "D7" (initState exDB) 2 "grp" "instant").2.2 rfl⟩

/-- Classifier for the three pre-side-effect validation failures of
`joinGame`. -/
def JoinResult.isValidationFailure : JoinResult → Bool
  | .errNoActiveGame => true
  | .errInvalidGuess _ _ => true
  | .errAlreadyJoined => true
  | _ => false

/-- Claim C6: a join whose guess lies outside the round range fails with
InvalidGuess, and each of the NoActiveRound, InvalidGuess and AlreadyJoined
validation failures returns the state completely unchanged: the pot, the
participant list, the wallets (no debit), the bets (no record) and the games
table are exactly as before. -/
theorem joinGame_validation_no_side_effects (s : ManagerState) (g u : Nat)
    (un : String) (a : Q) (t : Token) (c : Int) (bOk dOk : Bool) :
    (∀ gd, s.activeGames g = some gd →
        (c < gd.diceConfig.min ∨ c > gd.diceConfig.max) →
        joinGame s g u un a t c bOk dOk
          = (s, .errInvalidGuess gd.diceConfig.min gd.diceConfig.max)) ∧
    ((joinGame s g u un a t c bOk dOk).2.isValidationFailure = true →
        (joinGame s g u un a t c bOk dOk).1 = s) := by
  constructor
  · intro gd hact hrange
    unfold joinGame
    rw [hact]
    dsimp only
    rw [if_pos hrange]
  · intro hval
    unfold joinGame at hval ⊢
    cases hact : s.activeGames g with
    | none => rfl
    | some gd =>
      rw [hact] at hval
      dsimp only at hval ⊢
      by_cases hrange : c < gd.diceConfig.min ∨ c > gd.diceConfig.max
      · rw [if_pos hrange]
      · rw [if_neg hrange] at hval ⊢
        by_cases hj : gd.players.any (fun p => p.userId = u) = true
        · rw [if_pos hj]
        · rw [if_neg hj] at hval ⊢
          cases hw : s.db.wallets u with
          | none => rfl
          | some wallet =>
            rw [hw] at hval
            dsimp only at hval ⊢
            by_cases hbal : wallet.balanceOf t < a
            · rw [if_pos hbal]
            · rw [if_neg hbal] at hval ⊢
              cases bOk with
              | false => rfl
              | true =>
                rw [if_pos rfl] at hval
                exact absurd hval (by simp [JoinResult.isValidationFailure])

theorem joinGame_validation_no_side_effects_witness :
    joinGame exState 1 2 "bob" 5 Token.SOL 7 true true
        = (exState, JoinResult.errInvalidGuess 1 6) ∧
    (joinGame exState 1 2 "bob" 5 Token.SOL 7 true true).1 = exState :=
  ⟨(joinGame_validation_no_side_effects exState 1 2 "bob" 5 Token.SOL 7
      true true).1 exGame rfl (by decide),
   (joinGame_validation_no_side_effects exState 1 2 "bob" 5 Token.SOL 7
      true true).2 (by decide)⟩

/-- Claim C8: resolving a round whose participant list is empty cancels it:
the empty-round error is reported, the registry entry is removed (other
groups untouched), no wallet is read or written and no bet is touched (no
ledger calls), and the round's game row is marked cancelled. -/
theorem rollDice_empty_round_cancelled (s : ManagerState) (g : Nat) (d : Int)
    (env : Option Q) (gd : GameData) (hact : s.activeGames g = some gd)
    (hemp : gd.players = []) :
    (rollDice s g d env).2 = .errNoPlayers ∧
    (rollDice s g d env).1.activeGames g = none ∧
    (∀ g2, g2 ≠ g → (rollDice s g d env).1.activeGames g2 = s.activeGames g2) ∧
    (rollDice s g d env).1.db.wallets = s.db.wallets ∧
    (rollDice s g d env).1.db.bets = s.db.bets ∧
    (rollDice s g d env).1.db.games gd.gameId
      = (s.db.games gd.gameId).map (fun row => { row with status := "cancelled" }) := by
  have hlen : gd.players.length = 0 := by rw [hemp]; rfl
  have hroll : rollDice s g d env = (cancelGame s g, .errNoPlayers) := by
    unfold rollDice
    rw [hact]
    dsimp only
    rw [if_pos hlen]
  have hcancel : cancelGame s g
      = { activeGames := fun g2 => if g2 = g then none else s.activeGames g2,
          db := s.db.setGameStatus gd.gameId "cancelled" } := by
    unfold cancelGame
    rw [hact]
    dsimp only
    rw [hemp]
    rfl
  rw [hroll, hcancel]
  refine ⟨rfl, ?_, ?_, rfl, rfl, ?_⟩
  · dsimp only
    rw [if_pos rfl]
  · intro g2 hg2
    dsimp only
    rw [if_neg hg2]
  · dsimp only [DB.setGameStatus]
    rw [if_pos rfl]

theorem rollDice_empty_round_cancelled_witness :
    (rollDice exEmptyState 1 4 none).2 = RollResult.errNoPlayers ∧
    (rollDice exEmptyState 1 4 none).1.activeGames 1 = none ∧
    (rollDice exEmptyState 1 4 none).1.db.wallets = exDB.wallets :=
  ⟨(rollDice_empty_round_cancelled exEmptyState 1 4 none exEmptyGame rfl rfl).1,
   (rollDice_empty_round_cancelled exEmptyState 1 4 none exEmptyGame rfl rfl).2.1,
   (rollDice_empty_round_cancelled exEmptyState 1 4 none exEmptyGame rfl rfl).2.2.2.1⟩

/-- Claim C9 counterexample: all validation passes, the pre-check passes, and
the wallet debit fails (debitOk = false), yet joinGame reports success, the
participant is appended to the round and the wallet row is untouched — the
join is not aborted and no error is surfaced. -/
theorem debit_failure_join_not_aborted :
    (joinGame exState 1 3 "carol" 5 Token.SOL 4 true false).2
        = JoinResult.success ⟨13, 100, 3, 4, 5, Token.SOL, none, none, none⟩ ∧
    ((joinGame exState 1 3 "carol" 5 Token.SOL 4 true false).1.activeGames 1).map
        (fun gd => gd.players)
      = some [exP1, exP2, ⟨3, "carol", 5, Token.SOL, 4, 13⟩] ∧
    (joinGame exState 1 3 "carol" 5 Token.SOL 4 true false).1.db.wallets 3
      = some exWallet3 := by
  decide

/-- Claim C9 (amended): the bet-record insert and the participant append are
atomic — a failed insert aborts the join with the state unchanged and the
error surfaced — but the wallet-debit outcome is never consulted: when the
debit fails after a passing balance pre-check, the participant is still
appended, the pot is still incremented, success is still returned and the
wallet table keeps its old balances. -/
theorem joinGame_abort_on_bet_insert_failure_only (s : ManagerState) (g u : Nat)
    (un : String) (a : Q) (t : Token) (c : Int) (gd : GameData) (wallet : Wallet)
    (hact : s.activeGames g = some gd)
    (hrange : ¬(c < gd.diceConfig.min ∨ c > gd.diceConfig.max))
    (hjoined : ¬(gd.players.any (fun p => p.userId = u) = true))
    (hw : s.db.wallets u = some wallet)
    (hbal : ¬(wallet.balanceOf t < a)) :
    (∀ dOk, joinGame s g u un a t c false dOk = (s, .errFailedToPlaceBet)) ∧
    ((joinGame s g u un a t c true false).2
        = .success ⟨s.db.nextBetId, gd.gameId, u, c, a, t, none, none, none⟩) ∧
    (((joinGame s g u un a t c true false).1.activeGames g).map (fun x => x.players)
        = some (gd.players ++ [⟨u, un, a, t, c, s.db.nextBetId⟩])) ∧
    ((joinGame s g u un a t c true false).1.db.wallets = s.db.wallets) := by
  refine ⟨fun dOk => ?_, ?_, ?_, ?_⟩
  · unfold joinGame
    rw [hact]
    dsimp only
    rw [if_neg hrange, if_neg hjoined, hw]
    dsimp only
    rw [if_neg hbal]
    rfl
  · unfold joinGame
    rw [hact]
    dsimp only
    rw [if_neg hrange, if_neg hjoined, hw]
    dsimp only
    rw [if_neg hbal]
    rfl
  · unfold joinGame
    rw [hact]
    dsimp only
    rw [if_neg hrange, if_neg hjoined, hw]
    dsimp only
    rw [if_neg hbal]
    rw [if_pos rfl]
    dsimp only
    rw [if_pos rfl]
    rfl
  · unfold joinGame
    rw [hact]
    dsimp only
    rw [if_neg hrange, if_neg hjoined, hw]
    dsimp only
    rw [if_neg hbal]
    rfl

theorem joinGame_abort_on_bet_insert_failure_only_witness :
    joinGame exState 1 3 "carol" 5 Token.SOL 4 false true
        = (exState, JoinResult.errFailedToPlaceBet) ∧
    (joinGame exState 1 3 "carol" 5 Token.SOL 4 true false).1.db.wallets
        = exState.db.wallets :=
  ⟨(joinGame_abort_on_bet_insert_failure_only exState 1 3 "carol" 5 Token.SOL 4
      exGame exWallet3 rfl (by decide) (by decide) (by decide) (by decide)).1 true,
   (joinGame_abort_on_bet_insert_failure_only exState 1 3 "carol" 5 Token.SOL 4
      exGame exWallet3 rfl (by decide) (by decide) (by decide) (by decide)).2.2.2⟩

/-- Claim C4: in every state reachable by any sequence of operations from a
fresh manager, each active round's pot entry for a unit equals the sum of the
stake amounts of exactly the participants staking that unit — for arbitrary
numbers of joins, amounts and units (failed joins leave it untouched, and the
invariant holds up to the round's teardown at settlement). -/
theorem pot_eq_sum_of_stakes (db0 : DB) (ops : List Op) (g : Nat)
    (gd : GameData) (t : Token)
    (hact : (applyOps (initState db0) ops).activeGames g = some gd) :
    gd.pot t = sumAmounts gd.players t := by
  have hinv := registryInv_reachable db0 ops g gd hact
  cases t with
  | SOL => exact hinv.1
  | USDC => exact hinv.2

theorem pot_eq_sum_of_stakes_witness :
    (applyOps (initState exDB) exOps).activeGames 1 = some exGd2 ∧
    exGd2.pot .SOL = sumAmounts exGd2.players .SOL :=
  ⟨rfl, pot_eq_sum_of_stakes exDB exOps 1 exGd2 .SOL rfl⟩

/-- Claim C7: at settlement of a reachable round, the total amount debited
from the participants (the sum of their stakes, per unit) equals fee plus
distributable summed over the units, where the fee per unit is
pot * feeRate (feeRate = HOUSE_FEE_PERCENT / 100, defaulting to 2 / 100) and
the distributable is pot - fee; the fees recorded on the finalized game row
are exactly those values, so no value is created or destroyed apart from the
designated fee. -/
theorem settlement_round_trip (db0 : DB) (ops : List Op) (g : Nat) (d : Int)
    (env : Option Q) (gd : GameData)
    (hact : (applyOps (initState db0) ops).activeGames g = some gd)
    (hne : gd.players ≠ []) :
    (sumAmounts gd.players .SOL + sumAmounts gd.players .USDC
      = (gd.potSOL * houseFeePercent env
          + (gd.potSOL - gd.potSOL * houseFeePercent env))
        + (gd.potUSDC * houseFeePercent env
          + (gd.potUSDC - gd.potUSDC * houseFeePercent env))) ∧
    ((rollDice (applyOps (initState db0) ops) g d env).1.db.games gd.gameId
      = ((applyOps (initState db0) ops).db.games gd.gameId).map (fun row =>
          { row with status := "finished", diceResult := some d,
                     winnerIds := some ((calculateWinners gd.players d).map
                       (fun w => w.1.userId)),
                     houseFeeSol := some (gd.potSOL * houseFeePercent env),
                     houseFeeUsdc := some (gd.potUSDC * houseFeePercent env) })) := by
  have hinv := registryInv_reachable db0 ops g gd hact
  constructor
  · rw [← hinv.1, ← hinv.2]
    ring
  · have hlen : ¬ gd.players.length = 0 := by
      intro hc
      exact hne (List.length_eq_zero.mp hc)
    unfold rollDice
    rw [hact]
    dsimp only
    rw [if_neg hlen]
    dsimp only [DB.finalizeGame]
    rw [if_pos rfl, foldl_settleLoser_games, foldl_settleWinner_games]
    dsimp only [DB.setGameStatus]
    rw [if_pos rfl, Option.map_map]
    rfl

theorem settlement_round_trip_witness :
    (applyOps (initState exDB) exOps).activeGames 1 = some exGd2 ∧
    exGd2.players ≠ [] ∧
    (sumAmounts exGd2.players .SOL + sumAmounts exGd2.players .USDC
      = (exGd2.potSOL * houseFeePercent none
          + (exGd2.potSOL - exGd2.potSOL * houseFeePercent none))
        + (exGd2.potUSDC * houseFeePercent none
          + (exGd2.potUSDC - exGd2.potUSDC * houseFeePercent none))) :=
  ⟨rfl, by decide,
   (settlement_round_trip exDB exOps 1 4 none exGd2 rfl (by decide)).1⟩

theorem finalizeGame_bets (db : DB) (gid : Nat) (d : Int) (wids : List Nat)
    (h1 h2 : Q) : (db.finalizeGame gid d wids h1 h2).bets = db.bets := rfl

theorem setGameStatus_bets (db : DB) (gid : Nat) (st : String) :
    (db.setGameStatus gid st).bets = db.bets := rfl

/-- What settlement records on a winner's bet row: inside `rollDice`, the
winner's bet receives won = true, the payout drawn from the winner's own
unit's pot after the fee, divided by the total number of winners, and the
winner's distance. -/
theorem rollDice_bets_after_settlement (s : ManagerState) (g : Nat) (d : Int)
    (env : Option Q) (gd : GameData) (hact : s.activeGames g = some gd)
    (hnd : (gd.players.map Player.betId).Nodup) (hne : gd.players ≠ [])
    (w : Player × Nat) (hw : w ∈ calculateWinners gd.players d) :
    ((rollDice s g d env).1).db.bets w.1.betId
      = (s.db.bets w.1.betId).map (fun b =>
          { b with won := some true,
                   payout := some ((gd.pot w.1.token
                       - gd.pot w.1.token * houseFeePercent env)
                     / ((calculateWinners gd.players d).length : Q)),
                   distanceFromResult := some w.2 }) := by
  have hlen : ¬ gd.players.length = 0 := fun hc => hne (List.length_eq_zero.mp hc)
  have hw1 : w.1 ∈ gd.players := by
    have hsub := calculateWinners_subset gd.players d w hw
    simp only [List.mem_map] at hsub
    obtain ⟨p, hp, hpw⟩ := hsub
    cases hpw
    exact hp
  have hinj := List.inj_on_of_nodup_map hnd
  have hndW := calculateWinners_betId_nodup gd.players d hnd
  have hlosers : ∀ l ∈ gd.players.filter
      (fun p => ¬((calculateWinners gd.players d).any
        (fun x => x.1.userId = p.userId))), l.betId ≠ w.1.betId := by
    intro l hl hEq
    have hl1 := List.mem_of_mem_filter hl
    have hl2 := List.of_mem_filter hl
    have hlw : l = w.1 := hinj hl1 hw1 hEq
    subst hlw
    simp only [decide_eq_true_eq] at hl2
    exact hl2 (List.any_eq_true.mpr ⟨w, hw, by simp⟩)
  unfold rollDice
  rw [hact]
  dsimp only
  rw [if_neg hlen]
  dsimp only
  rw [finalizeGame_bets, foldl_settleLoser_bets_ne _ _ _ _ hlosers,
    foldl_settleWinner_bets_mem _ _ _ _ w hw hndW, setGameStatus_bets]
  cases htok : w.1.token <;> simp only [htok, GameData.pot]

/-- Claim C1 (amended): at settlement each winner's recorded payout is drawn
only from the distributable pool of the winner's own stake unit — cross-unit
pools are never merged or converted — but the divisor is the total number of
winners across both units, not the count of winners staking that unit; when
the winners' units are mixed, part of each unit's distributable pool is
simply never paid out. -/
theorem rollDice_winner_payout_share (s : ManagerState) (g : Nat) (d : Int)
    (env : Option Q) (gd : GameData) (hact : s.activeGames g = some gd)
    (hnd : (gd.players.map Player.betId).Nodup) (hne : gd.players ≠ [])
    (w : Player × Nat) (hw : w ∈ calculateWinners gd.players d) :
    ((rollDice s g d env).1).db.bets w.1.betId
      = (s.db.bets w.1.betId).map (fun b =>
          { b with won := some true,
                   payout := some ((gd.pot w.1.token
                       - gd.pot w.1.token * houseFeePercent env)
                     / ((calculateWinners gd.players d).length : Q)),
                   distanceFromResult := some w.2 }) :=
  rollDice_bets_after_settlement s g d env gd hact hnd hne w hw

theorem rollDice_winner_payout_share_witness :
    ((exP1, 1) ∈ calculateWinners exGame.players 4) ∧
    ((rollDice exState 1 4 none).1.db.bets 11
      = some { exBet1 with
          won := some true,
          payout := some ((exGame.pot Token.SOL
            - exGame.pot Token.SOL * houseFeePercent none)
            / ((calculateWinners exGame.players 4).length : Q)),
          distanceFromResult := some 1 }) := by
  refine ⟨by decide, ?_⟩
  exact rollDice_winner_payout_share exState 1 4 none exGame rfl (by decide)
    (by decide) (exP1, 1) (by decide)

/-- Claim C1 counterexample: round with two winners staking different units
(P1 in SOL, P2 in USDC, both at distance 1 from outcome 4).  The payout the
code records for the SOL winner is the SOL distributable divided by the total
number of winners (2), which differs from the claim's value, the SOL
distributable divided by the number of SOL winners (1). -/
theorem rollDice_per_unit_split_refuted :
    ((rollDice exState 1 4 none).1.db.bets 11).bind Bet.payout
      = some ((exGame.pot Token.SOL
          - exGame.pot Token.SOL * houseFeePercent none)
        / ((calculateWinners exGame.players 4).length : Q)) ∧
    ((rollDice exState 1 4 none).1.db.bets 11).bind Bet.payout
      ≠ some ((exGame.pot Token.SOL
          - exGame.pot Token.SOL * houseFeePercent none)
        / (((calculateWinners exGame.players 4).filter
            (fun w => w.1.token = Token.SOL)).length : Q)) := by
  have hbet : (rollDice exState 1 4 none).1.db.bets 11
      = some { exBet1 with
          won := some true,
          payout := some ((exGame.pot Token.SOL
            - exGame.pot Token.SOL * houseFeePercent none)
            / ((calculateWinners exGame.players 4).length : Q)),
          distanceFromResult := some 1 } := by
    exact rollDice_bets_after_settlement exState 1 4 none exGame rfl (by decide)
      (by decide) (exP1, 1) (by decide)
  constructor
  · rw [hbet]
    rfl
  · have hlenN : (calculateWinners exGame.players 4).length = 2 := by decide
    have hfilN : ((calculateWinners exGame.players 4).filter
        (fun w => w.1.token = Token.SOL)).length = 1 := by decide
    rw [hbet]
    intro hc
    rw [hlenN, hfilN] at hc
    have hc2 := Option.some.inj hc
    norm_num [exGame, GameData.pot, houseFeePercent, Option.getD_none] at hc2

end DiceIt
